import Mathlib

/-!
Verification of the label-placement and buffer-lifecycle logic of
`src/core/src/style/textBatch.cpp` (class `TextBatch`), as a shallow embedding.
Coordinates are embedded as rationals (the source uses 32-bit floats; the
properties verified here are exact-arithmetic statements about the computation
structure, so ℚ is the exact-real counterpart). The IEEE non-finite value
produced by the source's division of a zero sum by a zero count is embedded
explicitly as `Coord.nan`.
-/

namespace TextBatch

/-- A 2D point; the source's `Point` is a 3-component vector, but every use in
`textBatch.cpp` goes through `glm::vec2(p)` or reads only `p.x`/`p.y`, so the
third component never influences the computation. -/
abbrev Pt : Type := ℚ × ℚ

/-- One coordinate of a label anchor. `nan` embeds the IEEE not-a-number that
the source's float division `0.0f / 0` produces. -/
inductive Coord : Type where
| val (q : ℚ) : Coord
| nan : Coord
deriving DecidableEq

/-- `Label::Type` values used by `textBatch.cpp`. -/
inductive LabelType : Type where
| point : LabelType
| line : LabelType
deriving DecidableEq

/-- The record of one `m_style.m_labels->addTextLabel(*this, tile, {a1, a2}, text, type)`
call made by the batch: the placement handed to the label factory. -/
structure LabelPlacement : Type where
  type : LabelType
  anchor1 : Coord × Coord
  anchor2 : Coord × Coord
  text : String
deriving DecidableEq

/-- An anchor with both coordinates finite. -/
def mkAnchor (p : Pt) : Coord × Coord := (Coord.val p.1, Coord.val p.2)

/-- Modelled from the spec: `Properties::getString` is not under `src/` (only the
call sites are). Per the spec, placement needs "a required non-empty \"name\"
string property" and "for all features with absent/empty \"name\" property:
`add()` produces zero Labels", so the lookup succeeds exactly when the property
map carries a non-empty string for the key. -/
def getString (props : List (String × String)) (key : String) : Option String :=
  match props.lookup key with
  | Option.some v => if v = "" then Option.none else Option.some v
  | Option.none => Option.none

/-- `TextBatch::buildPoint` (lines 93-102): one Point label anchored at the
point, duplicated as a degenerate 2-point range, when the name lookup succeeds. -/
def buildPoint (point : Pt) (props : List (String × String)) : List LabelPlacement :=
  match getString props "name" with
  | Option.some nm => [⟨LabelType.point, mkAnchor point, mkAnchor point, nm⟩]
  | Option.none => []

/-- `int lineLength = _line.size(); int skipOffset = floor(lineLength / 2);`
(lines 110-111): the `size_t` count truncates to a 32-bit signed `int` (low 32
bits, two's complement), the `int` division by 2 truncates toward zero, and the
loop's `i += skipOffset` (line 115) converts the `int` back to `size_t`, so the
effective increment is the stride taken mod `2^64`. For `n % 2^32 < 2^31` the
truncated length is the non-negative `n % 2^32` and the stride is its floor
half; otherwise the truncated length is negative and the stride wraps. -/
def lineStride (n : Nat) : Nat :=
  if n % 2 ^ 32 < 2 ^ 31 then n % 2 ^ 32 / 2
  else (2 ^ 64 - (2 ^ 32 - n % 2 ^ 32) / 2) % 2 ^ 64

/-- The loop bound `_line.size() - 1` of line 115, computed in `size_t`
(64-bit unsigned) arithmetic: for a zero-length line it wraps to `2^64 - 1`. -/
def lineLoopBound (n : Nat) : Nat := (n + (2 ^ 64 - 1)) % 2 ^ 64

/-- The squared minimum segment length: `minLength = 0.15` (line 112), compared
against the Euclidean segment length; comparing squares is equivalent for
non-negative quantities. -/
def minLengthSq : ℚ := (3 / 20) ^ 2

/-- Squared Euclidean length of `p2 - p1` (lines 119-120). -/
def distSq (p q : Pt) : ℚ := (q.1 - p.1) ^ 2 + (q.2 - p.2) ^ 2

/-- The index sequence of the sampling loop
`for (size_t i = 0; i < _line.size() - 1; i += skipOffset)` (line 115); the
`size_t` increment wraps mod `2^64`. The `0 < s` conjunct makes the model
total: when the effective stride is `0` and the bound is positive the source
loop never advances `i` (and, on an empty line, reads `_line[0]` and `_line[1]`
out of bounds); fuel `line.length` suffices for every terminating execution of
the source loop at the vertex counts the theorems below assert. -/
def sampleIndicesFuel (nm1 s : Nat) : Nat → Nat → List Nat
| 0, _ => []
| fuel + 1, i =>
    if 0 < s ∧ i < nm1 then i :: sampleIndicesFuel nm1 s fuel ((i + s) % 2 ^ 64) else []

/-- The candidate segment start indices examined by `TextBatch::buildLine`. -/
def lineSampleIndices (line : List Pt) : List Nat :=
  sampleIndicesFuel (lineLoopBound line.length) (lineStride line.length) line.length 0

/-- The body of the sampling loop (lines 116-126): the label emitted for the
segment starting at vertex `i`, or nothing when the segment is shorter than the
minimum length. -/
def segLabel (line : List Pt) (nm : String) (i : Nat) : Option LabelPlacement :=
  if distSq (line.getD i (0, 0)) (line.getD (i + 1) (0, 0)) < minLengthSq then Option.none
  else
    Option.some ⟨LabelType.line, mkAnchor (line.getD i (0, 0)),
      mkAnchor (line.getD (i + 1) (0, 0)), nm⟩

/-- `TextBatch::buildLine` (lines 104-129). -/
def buildLine (line : List Pt) (props : List (String × String)) : List LabelPlacement :=
  match getString props "name" with
  | Option.some nm => (lineSampleIndices line).filterMap (segLabel line nm)
  | Option.none => []

abbrev Ring : Type := List Pt
abbrev Polygon : Type := List Ring

/-- The accumulation loop of `TextBatch::buildPolygon` (lines 137-146): one pass
over all rings summing `x`, `y` and counting vertices, starting from the
zero-initialized `glm::vec3 centroid` and `n = 0`. -/
def polyAccum (poly : Polygon) : (ℚ × ℚ) × Nat :=
  poly.foldl
    (fun acc ring =>
      ring.foldl (fun a p => ((a.1.1 + p.1, a.1.2 + p.2), a.2 + 1)) acc)
    ((0, 0), 0)

/-- `centroid /= n` (line 148) on one float component: dividing the zero sum by
a zero count yields IEEE NaN, embedded as `Coord.nan`; otherwise the exact
quotient. -/
def divCoord (x : ℚ) (n : Nat) : Coord :=
  if n = 0 then Coord.nan else Coord.val (x / (n : ℚ))

/-- `TextBatch::buildPolygon` (lines 131-153): unconditionally emits one Point
label at the accumulated centroid whenever the name lookup succeeds. -/
def buildPolygon (poly : Polygon) (props : List (String × String)) : List LabelPlacement :=
  match getString props "name" with
  | Option.some nm =>
      [⟨LabelType.point,
        (divCoord (polyAccum poly).1.1 (polyAccum poly).2,
         divCoord (polyAccum poly).1.2 (polyAccum poly).2),
        (divCoord (polyAccum poly).1.1 (polyAccum poly).2,
         divCoord (polyAccum poly).1.2 (polyAccum poly).2),
        nm⟩]
  | Option.none => []

/-- `GeometryType` as switched on by `TextBatch::add` (line 72); `unknown`
stands for any value reaching the `default` case. -/
inductive GeometryType : Type where
| points : GeometryType
| lines : GeometryType
| polygons : GeometryType
| unknown : GeometryType
deriving DecidableEq

/-- The feature fields read by `TextBatch::add`. -/
structure Feature : Type where
  geometryType : GeometryType
  points : List Pt
  lines : List (List Pt)
  polygons : List Polygon
  props : List (String × String)

/-- `TextBatch::add` (lines 70-91): dispatch on geometry type, one builder call
per geometry element; result = the sequence of `addTextLabel` calls made. -/
def add (f : Feature) : List LabelPlacement :=
  match f.geometryType with
  | GeometryType.points => f.points.flatMap (fun p => buildPoint p f.props)
  | GeometryType.lines => f.lines.flatMap (fun l => buildLine l f.props)
  | GeometryType.polygons => f.polygons.flatMap (fun pg => buildPolygon pg f.props)
  | GeometryType.unknown => []

/-- The rational carried by an anchor coordinate (`0` for the non-finite
case, which never arises for line labels). -/
def Coord.q : Coord → ℚ
| Coord.val x => x
| Coord.nan => 0

/-- Squared Euclidean distance between two finite anchors. -/
def anchorDistSq (a b : Coord × Coord) : ℚ :=
  ((b.1).q - (a.1).q) ^ 2 + ((b.2).q - (a.2).q) ^ 2

/-- The spec's own centroid formula, stated in the spec's words: "sum of x,y
divided by vertex count, ignoring ring structure". Defined separately from the
source-derived `polyAccum` so the two can be compared. -/
def specCentroid (poly : Polygon) : ℚ × ℚ :=
  ((poly.flatten.map Prod.fst).sum / (poly.flatten.length : ℚ),
   (poly.flatten.map Prod.snd).sum / (poly.flatten.length : ℚ))

/-- The batch state observed by the dirty-flag law: the `m_dirtyTransform` flag
and a counter of `glfonsUpdateBuffer` calls issued by `pushBuffer`. -/
structure BatchState : Type where
  dirtyTransform : Bool
  updateCount : Nat
deriving DecidableEq

/-- The constructor (lines 8-14): `m_dirtyTransform = false;` and no buffer
update has been issued. -/
def newBatch : BatchState := { dirtyTransform := false, updateCount := 0 }

/-- `TextBatch::transformID` (lines 53-60): issues `glfonsTransform` for one run
and sets `m_dirtyTransform = true`; the run id, screen position, rotation angle
and alpha do not affect the batch state. -/
def transformID (s : BatchState) : BatchState := { s with dirtyTransform := true }

/-- `TextBatch::pushBuffer` (lines 43-51): when dirty, one `glfonsUpdateBuffer`
call and the flag is cleared; otherwise nothing. -/
def pushBuffer (s : BatchState) : BatchState :=
  if s.dirtyTransform then { dirtyTransform := false, updateCount := s.updateCount + 1 }
  else s

/-- Modelled from the spec: `Label::pushTransform` is not under `src/`; per the
spec it pushes the label's current transform into the shared context, i.e. calls
`transformID`. `k` successive pushes. -/
def pushTransforms : BatchState → Nat → BatchState
| s, 0 => s
| s, k + 1 => pushTransforms (transformID s) k

/-- `TextBatch::prepare` (lines 209-214) with `k` owned labels: push every
label's transform, then `pushBuffer`. -/
def prepare (s : BatchState) (k : Nat) : BatchState := pushBuffer (pushTransforms s k)

/-- An event of the shared glyph-context access discipline. -/
inductive CtxEvent : Type where
| lockCtx : CtxEvent
| unlockCtx : CtxEvent
| bindBuf : CtxEvent
| call (name : String) : CtxEvent
deriving DecidableEq

/-- Modelled from the spec: `FontContext::bind` is not under `src/`; per the
spec it acquires the exclusive lock on the shared context and binds the batch's
RasterBuffer handle, and the scoped context view releases the lock on scope
exit (all exit paths). The given context calls happen inside the scope. -/
def bindScope (calls : List String) : List CtxEvent :=
  CtxEvent.lockCtx :: CtxEvent.bindBuf :: (calls.map CtxEvent.call) ++ [CtxEvent.unlockCtx]

/-- `TextBatch::genTextID` (lines 31-36). -/
def genTextIDTrace : List CtxEvent := bindScope ["glfonsGenText"]

/-- `TextBatch::rasterize` (lines 38-41). -/
def rasterizeTrace : List CtxEvent := bindScope ["glfonsRasterize"]

/-- `TextBatch::transformID` (lines 53-60). -/
def transformIDTrace : List CtxEvent := bindScope ["glfonsTransform"]

/-- `TextBatch::getVerticesSize` (lines 26-29). -/
def getVerticesSizeTrace : List CtxEvent := bindScope ["glfonsVerticesSize"]

/-- `TextBatch::getBBox` (lines 62-68). -/
def getBBoxTrace : List CtxEvent := bindScope ["glfonsGetBBox"]

/-- `TextBatch::pushBuffer` (lines 43-51): binds and flushes only when dirty. -/
def pushBufferTrace (dirty : Bool) : List CtxEvent :=
  if dirty then bindScope ["glfonsUpdateBuffer"] else []

/-- `TextBatch::compile` (lines 155-180): the vertex-count query via
`getVerticesSize`, then — unless the buffer is empty — a second scoped bind for
the `glfonsVertices` pull. -/
def compileTrace (emptyBuf : Bool) : List CtxEvent :=
  if emptyBuf then getVerticesSizeTrace
  else getVerticesSizeTrace ++ bindScope ["glfonsVertices"]

/-- `TextBatch::~TextBatch` (lines 22-24): calls `glfonsBufferDelete` directly
on `m_fontContext->getFontContext()` — no lock acquisition, no bind. -/
def dtorTrace : List CtxEvent := [CtxEvent.call "glfonsBufferDelete"]

/-- Lock-discipline checker: every context call must occur while the lock is
held and the RasterBuffer is bound, locking is non-reentrant, and the lock is
released by the end of the trace. -/
def wellLockedAux : List CtxEvent → Bool → Bool → Bool
| [], locked, _ => !locked
| CtxEvent.lockCtx :: es, locked, _ => if locked then false else wellLockedAux es true false
| CtxEvent.unlockCtx :: es, locked, _ => if locked then wellLockedAux es false false else false
| CtxEvent.bindBuf :: es, locked, _ => if locked then wellLockedAux es true true else false
| CtxEvent.call _ :: es, locked, bound =>
    if locked && bound then wellLockedAux es locked bound else false

/-- A trace obeys the exclusively-locked, buffer-bound critical-section
discipline. -/
def wellLocked (t : List CtxEvent) : Bool := wellLockedAux t false false

/-- The mesh collaborator interface consumed by `compile` (the `TypedMesh`
class is not under `src/`): `addVertices` and `numVertices`, kept abstract so
the compile contract is independent of the mesh's internal vertex policy. -/
structure MeshOps (μ : Type) (V : Type) : Type where
  addVertices : μ → List V → μ
  numVertices : μ → Nat

/-- The shared-context state `compile` reads: the flattened vertex content the
bound buffer would pull (`glfonsVerticesSize` reports its length) and whether
the `glfonsVertices` pull reports success. -/
structure GlyphCtxState (V : Type) : Type where
  verts : List V
  pullOk : Bool

/-- `TextBatch::compile` (lines 155-180). Result: (return value, mesh state,
whether `compileVertexBuffer` was invoked). The pulled array equals
`ctx.verts` on success and is handed to the mesh only then (line 171-173). -/
def compile (ops : MeshOps μ V) (ctx : GlyphCtxState V) (m : μ) : Bool × μ × Bool :=
  let bufferSize := ctx.verts.length
  if bufferSize = 0 then (false, m, false)
  else
    let m1 := if ctx.pullOk then ops.addVertices m ctx.verts else m
    if 0 < ops.numVertices m1 then (true, m1, true) else (false, m1, false)

/-- A concrete list-backed mesh instance, used to exercise the compile contract
on concrete inputs. -/
def listMeshOps : MeshOps (List Nat) Nat :=
  { addVertices := fun m vs => m ++ vs, numVertices := List.length }

theorem pushTransforms_transformID (k : Nat) :
    ∀ s : BatchState, pushTransforms (transformID s) k = transformID s := by
  induction k with
  | zero => intro s; rfl
  | succ k ih =>
      intro s
      show pushTransforms (transformID (transformID s)) k = transformID s
      exact ih s

/-- Claim C1: a feature whose properties lack a "name" entry, or whose "name"
value is the empty string, produces zero label placements from `add` — no
`addTextLabel` call is made — whatever its geometry type (point, line or
polygon features alike). -/
theorem c1_no_name_no_labels (f : Feature)
    (h : f.props.lookup "name" = Option.none ∨ f.props.lookup "name" = Option.some "") :
    add f = [] := by
  have hg : getString f.props "name" = Option.none := by
    unfold getString
    rcases h with h | h <;> simp [h]
  unfold add
  cases f.geometryType <;> simp [buildPoint, buildLine, buildPolygon, hg]

theorem c1_witness :
    add { geometryType := GeometryType.polygons, points := [], lines := [],
          polygons := [[[(0, 0), (1, 0), (1, 1), (0, 1)]]],
          props := [("kind", "water")] } = [] :=
  c1_no_name_no_labels _ (Or.inl (by decide))

/-- Claim C3 (evidence of the code defect): on the empty polygon `[[]]` with a
"name" property the source still emits exactly one label, after dividing the
zero centroid sums by the zero vertex count (`centroid /= n` with `n = 0`, the
NaN anchors below); and on a zero-vertex line the loop bound `_line.size() - 1`
wraps in `size_t` to `2^64 - 1` while `skipOffset` is `0`, so the first loop
test succeeds, `_line[0]` and `_line[1]` are read out of bounds, and `i` never
advances. The claim (no label, no division by zero, no out-of-bounds read, and
termination) is what the spec demands; the source violates it. -/
theorem c3_code_bug_eval :
    polyAccum [([] : Ring)] = ((0, 0), 0)
    ∧ buildPolygon [([] : Ring)] [("name", "A")] =
        [⟨LabelType.point, (Coord.nan, Coord.nan), (Coord.nan, Coord.nan), "A"⟩]
    ∧ lineStride 0 = 0
    ∧ lineLoopBound 0 = 2 ^ 64 - 1 := by
  refine ⟨by decide, by decide, by decide, ?_⟩
  unfold lineLoopBound
  norm_num

/-- Claim C4 (dirty-flag law): a fresh batch starts with the flag clear; any
`transformID` call marks the batch dirty; the next `pushBuffer` — also the one
at the end of `prepare`, for any number `k` of owned labels — issues exactly one
`glfonsUpdateBuffer` and clears the flag; a further `pushBuffer` with no
intervening `transformID` issues zero updates; and `pushBuffer` on a clean
batch does nothing. -/
theorem c4_dirty_flag_law (s : BatchState) (k n : Nat) :
    newBatch.dirtyTransform = false
    ∧ (transformID s).dirtyTransform = true
    ∧ pushBuffer (transformID s) =
        { dirtyTransform := false, updateCount := s.updateCount + 1 }
    ∧ prepare (transformID s) k =
        { dirtyTransform := false, updateCount := s.updateCount + 1 }
    ∧ pushBuffer (pushBuffer (transformID s)) = pushBuffer (transformID s)
    ∧ pushBuffer { dirtyTransform := false, updateCount := n } =
        { dirtyTransform := false, updateCount := n } := by
  refine ⟨rfl, rfl, rfl, ?_, rfl, rfl⟩
  unfold prepare
  rw [pushTransforms_transformID]
  rfl

/-- Claim C5, counterexample: the destructor's release of the RasterBuffer
(`glfonsBufferDelete`, line 23) happens on the raw context with no lock
acquisition and no bind, so its trace violates the exclusively-locked,
buffer-bound critical-section discipline the claim asserts for it. -/
theorem c5_counterexample : wellLocked dtorTrace = false := by decide

/-- Claim C5 as amended: run creation (`genTextID`), `rasterize`,
`transformID`, the vertex-count query, the vertex pull in `compile`, the
bounding-box query and the buffer flush in `pushBuffer` each perform their
context calls inside an exclusively-locked, buffer-bound critical section that
is released on every exit path — but the destructor's `glfonsBufferDelete` does
not (see the counterexample). -/
theorem c5_locked_ops (dirty emptyBuf : Bool) :
    wellLocked genTextIDTrace = true
    ∧ wellLocked rasterizeTrace = true
    ∧ wellLocked transformIDTrace = true
    ∧ wellLocked getVerticesSizeTrace = true
    ∧ wellLocked getBBoxTrace = true
    ∧ wellLocked (pushBufferTrace dirty) = true
    ∧ wellLocked (compileTrace emptyBuf) = true := by
  cases dirty <;> cases emptyBuf <;> decide

/-- Claim C6 (compile contract): `compile` queries the context vertex count;
when it is zero it returns false without touching the mesh and without a second
context bind; when it is nonzero it pulls the vertices inside a locked, bound
scope, hands the pulled array to the mesh exactly when the pull reports
success, returns false if the mesh then holds zero vertices, and otherwise
compiles the GPU buffer and returns true (third component: whether
`compileVertexBuffer` ran). -/
theorem c6_compile_contract (ops : MeshOps μ V) (ctx : GlyphCtxState V) (m : μ) :
    (ctx.verts.length = 0 → compile ops ctx m = (false, m, false))
    ∧ (0 < ctx.verts.length → ctx.pullOk = true →
        compile ops ctx m =
          if 0 < ops.numVertices (ops.addVertices m ctx.verts) then
            (true, ops.addVertices m ctx.verts, true)
          else (false, ops.addVertices m ctx.verts, false))
    ∧ (0 < ctx.verts.length → ctx.pullOk = false →
        compile ops ctx m =
          if 0 < ops.numVertices m then (true, m, true) else (false, m, false))
    ∧ wellLocked (compileTrace (decide (ctx.verts.length = 0))) = true := by
  refine ⟨?_, ?_, ?_, ?_⟩
  · intro h
    simp [compile, h]
  · intro h hp
    have h0 : ctx.verts.length ≠ 0 := Nat.pos_iff_ne_zero.mp h
    simp [compile, h0, hp]
  · intro h hp
    have h0 : ctx.verts.length ≠ 0 := Nat.pos_iff_ne_zero.mp h
    simp [compile, h0, hp]
  · generalize decide (ctx.verts.length = 0) = b
    cases b <;> decide

theorem c6_witness :
    compile listMeshOps { verts := [7], pullOk := true } ([] : List Nat) = (true, [7], true) := by
  have h := (c6_compile_contract listMeshOps { verts := [7], pullOk := true } []).2.1
    (by decide) rfl
  exact h.trans (by decide)

/-- Claim C10: when the vertex pull reports failure (and a pull actually
happened, i.e. the context vertex count was nonzero), `compile` adds nothing to
the mesh — the mesh value is exactly the one passed in — and the return value
depends only on the mesh's pre-existing vertex count: it still returns true and
recompiles the GPU buffer when the mesh already held vertices. -/
theorem c10_pull_failure_preserves_mesh (ops : MeshOps μ V) (ctx : GlyphCtxState V)
    (m : μ) (h0 : 0 < ctx.verts.length) (h1 : ctx.pullOk = false) :
    compile ops ctx m =
      if 0 < ops.numVertices m then (true, m, true) else (false, m, false) := by
  have hne : ctx.verts.length ≠ 0 := Nat.pos_iff_ne_zero.mp h0
  simp [compile, hne, h1]

theorem c10_witness :
    compile listMeshOps { verts := [5], pullOk := false } [9] = (true, [9], true) := by
  have h := c10_pull_failure_preserves_mesh listMeshOps
    { verts := [5], pullOk := false } [9] (by decide) rfl
  exact h.trans (by decide)

theorem ringFoldl_accum (ring : Ring) :
    ∀ a : (ℚ × ℚ) × Nat,
      ring.foldl (fun a p => ((a.1.1 + p.1, a.1.2 + p.2), a.2 + 1)) a =
        ((a.1.1 + (ring.map Prod.fst).sum, a.1.2 + (ring.map Prod.snd).sum),
         a.2 + ring.length) := by
  induction ring with
  | nil => intro a; simp
  | cons p t ih =>
      intro a
      rw [List.foldl_cons, ih]
      simp only [List.map_cons, List.sum_cons, List.length_cons, Prod.mk.injEq]
      refine ⟨⟨by ring, by ring⟩, by omega⟩

theorem polyAccum_flatten (poly : Polygon) :
    polyAccum poly =
      (((poly.flatten.map Prod.fst).sum, (poly.flatten.map Prod.snd).sum),
       poly.flatten.length) := by
  unfold polyAccum
  suffices h : ∀ a : (ℚ × ℚ) × Nat,
      poly.foldl
        (fun acc ring =>
          ring.foldl (fun a p => ((a.1.1 + p.1, a.1.2 + p.2), a.2 + 1)) acc) a =
        ((a.1.1 + (poly.flatten.map Prod.fst).sum,
          a.1.2 + (poly.flatten.map Prod.snd).sum),
         a.2 + poly.flatten.length) by
    rw [h ((0, 0), 0)]
    simp
  induction poly with
  | nil => intro a; simp
  | cons r t ih =>
      intro a
      rw [List.foldl_cons, ringFoldl_accum, ih]
      simp only [List.flatten_cons, List.map_append, List.sum_append,
        List.length_append, Prod.mk.injEq]
      refine ⟨⟨by ring, by ring⟩, by omega⟩

/-- Claim C2: for every polygon with a non-empty "name" property and at least
one vertex across its rings, `buildPolygon` emits exactly one Point-type label,
both anchor points equal, anchored at the spec's unweighted centroid — the sum
of the x and y coordinates of every vertex of every ring divided by the total
vertex count, ignoring ring structure (`specCentroid`). -/
theorem c2_polygon_centroid (poly : Polygon) (props : List (String × String))
    (nm : String) (h1 : getString props "name" = Option.some nm)
    (h2 : 0 < poly.flatten.length) :
    buildPolygon poly props =
      [⟨LabelType.point,
        (Coord.val (specCentroid poly).1, Coord.val (specCentroid poly).2),
        (Coord.val (specCentroid poly).1, Coord.val (specCentroid poly).2), nm⟩] := by
  unfold buildPolygon
  rw [h1]
  have hne : poly.flatten.length ≠ 0 := Nat.pos_iff_ne_zero.mp h2
  simp only [polyAccum_flatten, divCoord, specCentroid, hne, if_false, ite_false]

theorem c2_witness :
    buildPolygon [[(0, 0), (1, 0), (1, 1), (0, 1)]] [("name", "sq")] =
      [⟨LabelType.point, (Coord.val (1 / 2), Coord.val (1 / 2)),
        (Coord.val (1 / 2), Coord.val (1 / 2)), "sq"⟩] := by
  have h := c2_polygon_centroid [[(0, 0), (1, 0), (1, 1), (0, 1)]] [("name", "sq")] "sq"
    (by decide) (by decide)
  refine h.trans ?_
  norm_num [specCentroid]

theorem ceilDiv_step (s d : Nat) (hs : 0 < s) (hd : 0 < d) :
    (d + s - 1) / s = (d - s + s - 1) / s + 1 := by
  have h1 : d + s - 1 = (d - 1) + s := by omega
  rw [h1, Nat.add_div_right _ hs]
  by_cases hds : d ≤ s
  · have h2 : d - s = 0 := by omega
    rw [h2]
    have h3 : (d - 1) / s = 0 := Nat.div_eq_of_lt (by omega)
    have h4 : (0 + s - 1) / s = 0 := Nat.div_eq_of_lt (by omega)
    rw [h3, h4]
  · have h4 : d - s + s - 1 = (d - s - 1) + s := by omega
    rw [h4, Nat.add_div_right _ hs]
    have h5 : d - 1 = (d - s - 1) + s := by omega
    rw [h5, Nat.add_div_right _ hs]

theorem sampleIndicesFuel_stride_zero (nm1 : Nat) :
    ∀ fuel i : Nat, sampleIndicesFuel nm1 0 fuel i = [] := by
  intro fuel i
  cases fuel with
  | zero => rfl
  | succ fuel =>
      show (if 0 < 0 ∧ i < nm1 then
        i :: sampleIndicesFuel nm1 0 fuel ((i + 0) % 2 ^ 64) else []) = []
      rw [if_neg]
      intro hc
      exact absurd hc.1 (by omega)

theorem sampleIndicesFuel_range (s : Nat) (hs : 0 < s) :
    ∀ fuel nm1 i : Nat, nm1 - i ≤ fuel → nm1 + s ≤ 2 ^ 64 →
      sampleIndicesFuel nm1 s fuel i =
        (List.range ((nm1 - i + s - 1) / s)).map (fun k => i + k * s) := by
  intro fuel
  induction fuel with
  | zero =>
      intro nm1 i hle hbd
      have h0 : nm1 - i = 0 := Nat.le_zero.mp hle
      rw [h0]
      have hc : (0 + s - 1) / s = 0 := Nat.div_eq_of_lt (by omega)
      rw [hc]
      rfl
  | succ fuel ih =>
      intro nm1 i hle hbd
      by_cases hlt : i < nm1
      · have hmod : (i + s) % 2 ^ 64 = i + s := Nat.mod_eq_of_lt (by omega)
        have hstep : sampleIndicesFuel nm1 s (fuel + 1) i =
            i :: sampleIndicesFuel nm1 s fuel (i + s) := by
          show (if 0 < s ∧ i < nm1 then
            i :: sampleIndicesFuel nm1 s fuel ((i + s) % 2 ^ 64) else []) =
            i :: sampleIndicesFuel nm1 s fuel (i + s)
          rw [if_pos ⟨hs, hlt⟩, hmod]
        rw [hstep, ih nm1 (i + s) (by omega) hbd]
        have hsub : nm1 - (i + s) = nm1 - i - s := by omega
        rw [hsub]
        have hstepc : (nm1 - i + s - 1) / s = (nm1 - i - s + s - 1) / s + 1 :=
          ceilDiv_step s (nm1 - i) hs (by omega)
        rw [hstepc, List.range_succ_eq_map, List.map_cons, List.map_map]
        have hfun : ((fun k => i + k * s) ∘ Nat.succ) = fun k => (i + s) + k * s := by
          funext k
          simp only [Function.comp_apply, Nat.succ_mul]
          ring
        rw [hfun]
        simp
      · have hstep : sampleIndicesFuel nm1 s (fuel + 1) i = [] := by
          show (if 0 < s ∧ i < nm1 then
            i :: sampleIndicesFuel nm1 s fuel ((i + s) % 2 ^ 64) else []) = []
          rw [if_neg]
          intro hc
          exact hlt hc.2
        have h0 : nm1 - i = 0 := by omega
        rw [hstep, h0]
        have hc : (0 + s - 1) / s = 0 := Nat.div_eq_of_lt (by omega)
        rw [hc]
        rfl

theorem lineStride_small (n : Nat) (h : n < 2 ^ 31) : lineStride n = n / 2 := by
  unfold lineStride
  rw [Nat.mod_eq_of_lt (show n < 2 ^ 32 by omega), if_pos h]

/-- Claim C7 counterexample: at `N = 2^32` vertices, line 110's `size_t`-to-
`int` conversion truncates `lineLength` to `0`, so the stride is `0` while the
loop bound `N - 1` is positive: the loop is entered and never advances `i`
(the guarded model returns no sample), whereas the claim's formula
`⌈(N - 1) / max 1 ⌊N / 2⌋⌉` demands `2^32 - 1` examined segments at stride
`2^31`. -/
theorem c7_counterexample :
    lineStride (2 ^ 32) = 0
    ∧ 0 < lineLoopBound (2 ^ 32)
    ∧ lineSampleIndices (List.replicate (2 ^ 32) ((0 : ℚ), (0 : ℚ))) = []
    ∧ ((2 ^ 32 : Nat) - 1 + max 1 (lineStride (2 ^ 32)) - 1) /
        max 1 (lineStride (2 ^ 32)) = 2 ^ 32 - 1 := by
  have hst : lineStride (2 ^ 32) = 0 := by decide
  refine ⟨hst, by decide, ?_, by decide⟩
  unfold lineSampleIndices
  rw [List.length_replicate, hst, sampleIndicesFuel_stride_zero]

/-- Claim C7 as amended: for a line feature with a "name" property and `N`
vertices with `1 ≤ N < 2^31` — the range in which the `size_t`-to-`int`
conversion of line 110 preserves the count — the sampling loop of `buildLine`
examines exactly `⌈(N - 1) / max 1 ⌊N / 2⌋⌉` candidate segments — in ℕ,
`((N - 1) + max 1 (N / 2) - 1) / max 1 (N / 2)` — whose start indices begin at
vertex 0 and stride by `⌊N / 2⌋`; for larger `N` the truncation alters the
stride (see the counterexample). -/
theorem c7_sample_stride (line : List Pt) (props : List (String × String)) (nm : String)
    (h1 : getString props "name" = Option.some nm)
    (h2 : 1 ≤ line.length) (h3 : line.length < 2 ^ 31) :
    buildLine line props = (lineSampleIndices line).filterMap (segLabel line nm)
    ∧ (lineSampleIndices line).length =
        (line.length - 1 + max 1 (lineStride line.length) - 1) /
          max 1 (lineStride line.length)
    ∧ lineSampleIndices line =
        (List.range ((line.length - 1 + max 1 (lineStride line.length) - 1) /
            max 1 (lineStride line.length))).map
          (fun k => k * lineStride line.length) := by
  refine ⟨by unfold buildLine; rw [h1], ?_⟩
  rcases Nat.lt_or_ge line.length 2 with hN | hN
  · have hone : line.length = 1 := by omega
    unfold lineSampleIndices lineLoopBound lineStride
    rw [hone]
    refine ⟨?_, ?_⟩ <;> decide
  · have hsm : lineStride line.length = line.length / 2 :=
      lineStride_small line.length (by omega)
    have hs : 0 < lineStride line.length := by
      rw [hsm]
      exact Nat.div_pos hN (by norm_num)
    have hb : lineLoopBound line.length = line.length - 1 := by
      unfold lineLoopBound
      have he : line.length + (2 ^ 64 - 1) = (line.length - 1) + 2 ^ 64 := by omega
      rw [he, Nat.add_mod_right]
      exact Nat.mod_eq_of_lt (by omega)
    have hmax : max 1 (lineStride line.length) = lineStride line.length :=
      Nat.max_eq_right hs
    have hbd : line.length - 1 + lineStride line.length ≤ 2 ^ 64 := by
      rw [hsm]
      omega
    unfold lineSampleIndices
    rw [hb, hmax,
      sampleIndicesFuel_range (lineStride line.length) hs line.length (line.length - 1) 0
        (by omega) hbd]
    refine ⟨?_, ?_⟩ <;> simp

theorem c7_witness :
    (lineSampleIndices [(0, 0), (10, 0), (20, 0), (30, 0), (40, 0)]).length = 2 := by
  have h := c7_sample_stride [(0, 0), (10, 0), (20, 0), (30, 0), (40, 0)]
    [("name", "road")] "road" (by decide) (by decide) (by norm_num)
  exact h.2.1.trans (by decide)

/-- Claim C8: every label `buildLine` emits is a Line-type label anchored at
the two endpoints of one of the sampled segments, and that segment's Euclidean
length is at least `0.15` (equivalently, its squared length is not below
`minLengthSq = 0.15²`); a sampled segment shorter than `0.15` contributes no
label. -/
theorem c8_min_segment_length (line : List Pt) (props : List (String × String))
    (lab : LabelPlacement) (h : lab ∈ buildLine line props) :
    lab.type = LabelType.line
    ∧ ¬ anchorDistSq lab.anchor1 lab.anchor2 < minLengthSq
    ∧ ∃ i, i ∈ lineSampleIndices line
        ∧ lab.anchor1 = mkAnchor (line.getD i (0, 0))
        ∧ lab.anchor2 = mkAnchor (line.getD (i + 1) (0, 0)) := by
  unfold buildLine at h
  cases hg : getString props "name" with
  | none =>
      rw [hg] at h
      simp at h
  | some nm =>
      rw [hg] at h
      rcases List.mem_filterMap.mp h with ⟨i, hi, hseg⟩
      unfold segLabel at hseg
      by_cases hd : distSq (line.getD i (0, 0)) (line.getD (i + 1) (0, 0)) < minLengthSq
      · rw [if_pos hd] at hseg
        exact absurd hseg (by simp)
      · rw [if_neg hd] at hseg
        have hlab := Option.some.inj hseg
        rw [← hlab]
        refine ⟨rfl, ?_, ⟨i, hi, rfl, rfl⟩⟩
        simpa [anchorDistSq, mkAnchor, Coord.q, distSq] using hd

theorem c8_witness :
    (⟨LabelType.line, (Coord.val 0, Coord.val 0), (Coord.val 1, Coord.val 0), "a"⟩ :
        LabelPlacement).type = LabelType.line
    ∧ ¬ anchorDistSq (Coord.val 0, Coord.val 0) (Coord.val 1, Coord.val 0) < minLengthSq := by
  have hmem : (⟨LabelType.line, (Coord.val 0, Coord.val 0), (Coord.val 1, Coord.val 0),
      "a"⟩ : LabelPlacement) ∈ buildLine [(0, 0), (1, 0)] [("name", "a")] := by
    have h01 : lineSampleIndices [((0 : ℚ), (0 : ℚ)), (1, 0)] = [0] := by decide
    have hsg : segLabel [((0 : ℚ), (0 : ℚ)), (1, 0)] "a" 0 =
        Option.some ⟨LabelType.line, (Coord.val 0, Coord.val 0), (Coord.val 1, Coord.val 0),
          "a"⟩ := by
      unfold segLabel
      rw [if_neg]
      · rfl
      · norm_num [distSq, minLengthSq]
    unfold buildLine
    rw [show getString [("name", "a")] "name" = Option.some "a" from by decide]
    show _ ∈ List.filterMap (segLabel [((0 : ℚ), (0 : ℚ)), (1, 0)] "a")
      (lineSampleIndices [((0 : ℚ), (0 : ℚ)), (1, 0)])
    rw [h01, List.filterMap_cons, hsg]
    simp
  have h := c8_min_segment_length [(0, 0), (1, 0)] [("name", "a")]
    ⟨LabelType.line, (Coord.val 0, Coord.val 0), (Coord.val 1, Coord.val 0), "a"⟩ hmem
  exact ⟨h.1, h.2.1⟩

end TextBatch
